import Mathlib

/-!
Verification of the gh-repo-review application core against its source.

The development shallowly embeds the Go source:
* `internal/repo/repo.go` — the `Repo` record, `FilterOptions`, `Filter`
  (a short-circuiting predicate filter) and `Sort` (a fixed-pass bubble
  sort whose descending direction negates the swap condition).
* `internal/tui/model.go` — the application `Model`, the message fold
  (`updateMsg`), the confirm-dialog key handlers and the view dispatch
  (`renderMode`).
* `internal/gh/client.go` — the construction of fetched records
  (`GhRepoNode.toRepo`), whose `selected` flag is always false.

Go machine integers are modelled as `Int`; `time.Time` values are
modelled as `Int` instants (in days, matching the granularity used by
the inactivity cutoff), with `Before`/`After` as `<`/`>`.
-/

namespace RepoReview

/-- Sortable fields, from `repo.go` (`SortField`). -/
inductive SortField : Type
  | name
  | updated
  | created
  | stars
  | forks
  | size
  deriving Repr, DecidableEq

/-- One repository record, from `repo.go` (`Repo`).  The `selected`
field defaults to `false`, matching Go's zero value for the field that
is never populated by JSON decoding. -/
structure Repo : Type where
  name : String
  fullName : String
  description : String := ""
  url : String := ""
  sshUrl : String := ""
  isPrivate : Bool := false
  isArchived : Bool := false
  isFork : Bool := false
  isTemplate : Bool := false
  stargazerCount : Int := 0
  forkCount : Int := 0
  openIssuesCount : Int := 0
  primaryLanguage : String := ""
  createdAt : Int := 0
  updatedAt : Int := 0
  pushedAt : Int := 0
  diskUsage : Int := 0
  selected : Bool := false
  deriving Repr, DecidableEq

/-- Filter and sort criteria, from `repo.go` (`FilterOptions`). -/
structure FilterOptions : Type where
  showArchived : Bool
  showPrivate : Bool
  showPublic : Bool
  showForks : Bool
  language : String
  minStars : Int
  maxStars : Int
  inactiveForDays : Int
  searchQuery : String
  sortBy : SortField
  sortDesc : Bool
  deriving Repr, DecidableEq

/-- `DefaultFilterOptions` from `repo.go`. -/
def DefaultFilterOptions : FilterOptions :=
  { showArchived := false
    showPrivate := true
    showPublic := true
    showForks := true
    language := ""
    minStars := -1
    maxStars := -1
    inactiveForDays := 0
    searchQuery := ""
    sortBy := SortField.updated
    sortDesc := true }

/-- Case folding used by `strings.ToLower` / `strings.EqualFold`. -/
def strFold (s : String) : String := s.toLower

/-- `strings.Contains` modelled on the character sequence. -/
def strContains (s sub : String) : Bool := decide (sub.toList <:+: s.toList)

/-- The per-record predicate of `Filter` (`repo.go` lines 103–151):
the sequence of `continue` guards, short-circuiting on the first
failing predicate.  `now` is the fixed instant at which the inactivity
cutoff `now - inactiveForDays` is evaluated (`repo.go` lines 98–101). -/
def keepRepo (now : Int) (opts : FilterOptions) (r : Repo) : Bool :=
  if r.isArchived && !opts.showArchived then false
  else if r.isPrivate && !opts.showPrivate then false
  else if !r.isPrivate && !opts.showPublic then false
  else if r.isFork && !opts.showForks then false
  else if opts.language ≠ "" && !(strFold r.primaryLanguage == strFold opts.language) then false
  else if opts.minStars ≥ 0 && r.stargazerCount < opts.minStars then false
  else if opts.maxStars ≥ 0 && r.stargazerCount > opts.maxStars then false
  else if opts.inactiveForDays > 0 && r.pushedAt > now - opts.inactiveForDays then false
  else if opts.searchQuery ≠ "" &&
      !(strContains (strFold r.name) (strFold opts.searchQuery) ||
        strContains (strFold r.description) (strFold opts.searchQuery)) then false
  else true

/-- `Filter` from `repo.go`: keeps, in input order, the records passing
every guard. -/
def Filter (repos : List Repo) (opts : FilterOptions) (now : Int) : List Repo :=
  repos.filter (keepRepo now opts)

/-- Go's lexicographic string ordering (`<` on `string`), modelled on
the code-point sequence (UTF-8 byte order and code-point order agree). -/
def charListLt : List Char → List Char → Bool
  | [], [] => false
  | [], _ :: _ => true
  | _ :: _, [] => false
  | a :: as, b :: bs =>
    if a.toNat < b.toNat then true
    else if b.toNat < a.toNat then false
    else charListLt as bs

/-- Go string comparison `a < b`. -/
def strLt (a b : String) : Bool := charListLt a.toList b.toList

/-- The per-field swap condition of `Sort` (`repo.go` lines 162–175):
`true` exactly when the adjacent pair is swapped in the ascending
direction. -/
def swapCond : SortField → Repo → Repo → Bool
  | SortField.name, a, b => strLt b.name a.name
  | SortField.updated, a, b => decide (a.updatedAt < b.updatedAt)
  | SortField.created, a, b => decide (a.createdAt < b.createdAt)
  | SortField.stars, a, b => decide (a.stargazerCount < b.stargazerCount)
  | SortField.forks, a, b => decide (a.forkCount < b.forkCount)
  | SortField.size, a, b => decide (a.diskUsage < b.diskUsage)

/-- The effective swap condition including direction (`repo.go` lines
176–178): `if desc { swap = !swap }`. -/
def swapFn (sortBy : SortField) (desc : Bool) (a b : Repo) : Bool :=
  if desc then !(swapCond sortBy a b) else swapCond sortBy a b

/-- One inner pass of the bubble sort (`repo.go` lines 160–182):
`passK swap k l` performs the `k` adjacent comparisons `j = 0 … k-1`,
swapping where the condition holds. -/
def passK {α : Type} (swap : α → α → Bool) : Nat → List α → List α
  | 0, l => l
  | _ + 1, [] => []
  | _ + 1, [a] => [a]
  | k + 1, a :: b :: rest =>
    if swap a b then b :: passK swap k (a :: rest)
    else a :: passK swap k (b :: rest)

/-- The outer loop of the bubble sort (`repo.go` lines 159–183): the
`i`-th iteration performs `n - i - 1` comparisons, so the passes use
`k, k-1, …, 1` comparisons. -/
def bubbleIter {α : Type} (swap : α → α → Bool) : Nat → List α → List α
  | 0, l => l
  | k + 1, l => bubbleIter swap k (passK swap (k + 1) l)

/-- `Sort` from `repo.go`: a fixed-pass bubble sort with `n - 1` outer
iterations.  (`Sort` itself is a reserved word in Lean, hence the name
`SortRepos`.) -/
def SortRepos (repos : List Repo) (sortBy : SortField) (desc : Bool) : List Repo :=
  bubbleIter (swapFn sortBy desc) (repos.length - 1) repos

/-- Two records compare equal under a sort field exactly when the swap
condition rejects both orders. -/
def sortKeyEq (f : SortField) (a b : Repo) : Bool :=
  !(swapCond f a b) && !(swapCond f b a)

/-- The UI screens, from `model.go` (`View`). -/
inductive View : Type
  | list
  | filterPanel
  | detail
  | confirmArchive
  | confirmDelete
  | help
  deriving Repr, DecidableEq

/-- The application model, from `model.go` (`Model`), restricted to the
state the core folds and handlers read and write.  The error is
modelled as an optional message string; the spinner, text-input widget
and client handle carry no fold-relevant state. -/
structure Model : Type where
  repos : List Repo
  filteredRepos : List Repo
  username : String
  view : View
  cursor : Int
  offset : Int
  loading : Bool
  err : Option String
  message : String
  messageIsError : Bool
  filterOpts : FilterOptions
  height : Int
  selectedCount : Int
  deriving Repr, DecidableEq

/-- `visibleRows` from `model.go`. -/
def visibleRows (m : Model) : Int := m.height - 10

/-- `adjustOffset` from `model.go`: scroll the window so the cursor is
visible; the cursor itself is untouched. -/
def adjustOffset (m : Model) : Model :=
  let o1 := if m.cursor < m.offset then m.cursor else m.offset
  let o2 := if m.cursor ≥ o1 + visibleRows m then m.cursor - visibleRows m + 1 else o1
  { m with offset := o2 }

/-- `applyFilters` from `model.go`: recompute the filtered view
(filter, then in-place sort), clamp the cursor, adjust the scroll
offset. -/
def applyFilters (now : Int) (m : Model) : Model :=
  let fr := SortRepos (Filter m.repos m.filterOpts now) m.filterOpts.sortBy m.filterOpts.sortDesc
  let c1 : Int := if m.cursor ≥ (fr.length : Int) then (fr.length : Int) - 1 else m.cursor
  let c2 : Int := if c1 < 0 then 0 else c1
  adjustOffset { m with filteredRepos := fr, cursor := c2 }

/-- The operation-result messages consumed by `Update` (`model.go`).
`backgroundRefresh none` models a `backgroundRefreshMsg` carrying a nil
slice. -/
inductive Msg : Type
  | reposLoaded (repos : List Repo) (username : String)
  | cacheLoaded (repos : List Repo) (username : String) (fresh : Bool)
  | backgroundRefresh (repos : Option (List Repo))
  | errorResult (e : String)
  | archiveComplete (name : String)
  | deleteComplete (name : String)
  | actionNotice (text : String)
  deriving Repr, DecidableEq

/-- The `archiveCompleteMsg` loop of `Update` (`model.go` lines
243–249): mark the first record with the given identifier archived and
unselected, then stop (`break`). -/
def archiveFirst : List Repo → String → List Repo
  | [], _ => []
  | r :: rest, nm =>
    if r.fullName = nm then { r with isArchived := true, selected := false } :: rest
    else r :: archiveFirst rest nm

/-- The `deleteCompleteMsg` loop of `Update` (`model.go` lines
256–261): remove the first record with the given identifier, then stop
(`break`). -/
def deleteFirst : List Repo → String → List Repo
  | [], _ => []
  | r :: rest, nm =>
    if r.fullName = nm then rest
    else r :: deleteFirst rest nm

/-- The state part of `Update` (`model.go` lines 174–270) on
operation-result messages.  Command scheduling (the stale-cache
background refresh) has no effect on the folded state and is not
modelled here. -/
def updateMsg (now : Int) (m : Model) : Msg → Model
  | Msg.reposLoaded rs u =>
    let m1 := applyFilters now { m with loading := false, repos := rs, username := u }
    { m1 with message := "Loaded " ++ toString rs.length ++ " repositories" }
  | Msg.cacheLoaded rs u fresh =>
    let m1 := applyFilters now { m with loading := false, repos := rs, username := u }
    if fresh then
      { m1 with message := "Loaded " ++ toString rs.length ++ " repositories (cached)" }
    else
      { m1 with message := "Loaded " ++ toString rs.length ++ " repositories (refreshing...)" }
  | Msg.backgroundRefresh orepos =>
    match orepos with
    | none => m
    | some rs =>
      let selectedNames := (m.repos.filter (fun r => r.selected)).map (fun r => r.fullName)
      let newRepos := rs.map (fun r =>
        if r.fullName ∈ selectedNames then { r with selected := true } else r)
      let m1 := applyFilters now { m with repos := newRepos }
      { m1 with message := "Refreshed " ++ toString newRepos.length ++ " repositories" }
  | Msg.errorResult e =>
    { m with loading := false, err := some e, message := e, messageIsError := true }
  | Msg.archiveComplete nm =>
    applyFilters now
      { m with repos := archiveFirst m.repos nm
               message := "Archived: " ++ nm
               messageIsError := false }
  | Msg.deleteComplete nm =>
    applyFilters now
      { m with repos := deleteFirst m.repos nm
               message := "Deleted: " ++ nm
               messageIsError := false }
  | Msg.actionNotice text =>
    { m with message := text, messageIsError := false }

/-- An asynchronous operation dispatched by a confirm handler, carrying
only the record identifier captured at dispatch time. -/
inductive Op : Type
  | archive (name : String)
  | delete (name : String)
  deriving Repr, DecidableEq

/-- The command-building loop of `handleConfirmArchiveKeys` on `y`
(`model.go` lines 533–545): one archive operation per selected,
not-yet-archived record, in record-set order. -/
def archiveOps : List Repo → List Op
  | [] => []
  | r :: rest =>
    if r.selected && !r.isArchived then Op.archive r.fullName :: archiveOps rest
    else archiveOps rest

/-- The command-building loop of `handleConfirmDeleteKeys` on `y`
(`model.go` lines 565–577): one delete operation per selected record,
in record-set order. -/
def deleteOps : List Repo → List Op
  | [] => []
  | r :: rest =>
    if r.selected then Op.delete r.fullName :: deleteOps rest
    else deleteOps rest

/-- `handleConfirmArchiveKeys` from `model.go` (lines 529–558),
returning the new model and the dispatched operations.  On dismissal
(`n`/`N`/`esc`/`q`) the code clears `Selected` on the authoritative
`repos` slice only; `filteredRepos` is left untouched. -/
def handleConfirmArchiveKeys (m : Model) (key : String) : Model × List Op :=
  if key = "y" ∨ key = "Y" then
    ({ m with view := View.list }, archiveOps m.repos)
  else if key = "n" ∨ key = "N" ∨ key = "esc" ∨ key = "q" then
    ({ m with repos := m.repos.map (fun r => { r with selected := false })
              selectedCount := 0
              view := View.list }, [])
  else (m, [])

/-- `handleConfirmDeleteKeys` from `model.go` (lines 560–589). -/
def handleConfirmDeleteKeys (m : Model) (key : String) : Model × List Op :=
  if key = "y" ∨ key = "Y" then
    ({ m with view := View.list }, deleteOps m.repos)
  else if key = "n" ∨ key = "N" ∨ key = "esc" ∨ key = "q" then
    ({ m with repos := m.repos.map (fun r => { r with selected := false })
              selectedCount := 0
              view := View.list }, [])
  else (m, [])

/-- Which screen `View()` (`model.go` lines 695–723) renders: the
loading spinner while loading, the fatal error screen when an error is
set and no records are loaded, otherwise the active view. -/
inductive RenderMode : Type
  | loadingScreen
  | fatalError
  | normal (v : View)
  deriving Repr, DecidableEq

/-- The screen-dispatch logic of `View()` (`model.go` lines 695–723). -/
def renderMode (m : Model) : RenderMode :=
  if m.loading then RenderMode.loadingScreen
  else if m.err.isSome && m.repos.length == 0 then RenderMode.fatalError
  else RenderMode.normal m.view

/-- A raw repository node as decoded from the provider response
(`client.go` lines 146–168). -/
structure GhRepoNode : Type where
  name : String
  fullName : String
  description : String
  url : String
  sshUrl : String
  isPrivate : Bool
  isArchived : Bool
  isFork : Bool
  isTemplate : Bool
  stargazers : Int
  forkCount : Int
  issuesTotalCount : Int
  primaryLanguage : Option String
  createdAt : Int
  updatedAt : Int
  pushedAt : Int
  diskUsage : Int
  deriving Repr, DecidableEq

/-- The record constructed by `ListRepos` for each fetched node
(`client.go` lines 183–206).  The `Selected` field is never assigned,
so it carries Go's zero value `false`. -/
def GhRepoNode.toRepo (n : GhRepoNode) : Repo :=
  { name := n.name
    fullName := n.fullName
    description := n.description
    url := n.url
    sshUrl := n.sshUrl
    isPrivate := n.isPrivate
    isArchived := n.isArchived
    isFork := n.isFork
    isTemplate := n.isTemplate
    stargazerCount := n.stargazers
    forkCount := n.forkCount
    openIssuesCount := n.issuesTotalCount
    primaryLanguage := n.primaryLanguage.getD ""
    createdAt := n.createdAt
    updatedAt := n.updatedAt
    pushedAt := n.pushedAt
    diskUsage := n.diskUsage
    selected := false }

/-- A record with its UI-local selection bit cleared: the provider- and
cache-owned fields of the record. -/
def clearSelected (r : Repo) : Repo := { r with selected := false }

/-- The cursor invariant claimed for the filtered view: within
`[0, len-1]` when the view is non-empty, and exactly `0` when it is
empty. -/
def cursorInBounds (m : Model) : Prop :=
  (m.filteredRepos.length = 0 ∧ m.cursor = 0) ∨
  (0 ≤ m.cursor ∧ m.cursor < (m.filteredRepos.length : Int))

/-! ## Concrete instances used by counterexamples and witnesses -/

/-- Two records with equal sort keys under every field but distinct
identifiers. -/
def tieA : Repo := { name := "alpha", fullName := "user/alpha-one" }

/-- See `tieA`. -/
def tieB : Repo := { name := "alpha", fullName := "user/alpha-two" }

/-- A plain public, unarchived record. -/
def sampleRepo : Repo := { name := "proj", fullName := "user/proj" }

/-- A second record, distinct identifier. -/
def sampleRepo2 : Repo := { name := "other", fullName := "user/other" }

/-- Options hiding both private and public records. -/
def bothOffOpts : FilterOptions :=
  { DefaultFilterOptions with showPrivate := false, showPublic := false }

/-- A baseline model on the list screen with no records. -/
def baseModel : Model :=
  { repos := []
    filteredRepos := []
    username := "user"
    view := View.list
    cursor := 0
    offset := 0
    loading := false
    err := none
    message := ""
    messageIsError := false
    filterOpts := DefaultFilterOptions
    height := 24
    selectedCount := 0 }

/-- A reachable confirm-archive state: one record, selected both in the
authoritative set and (as a copy) in the filtered view, as left by
toggling selection and pressing `a`. -/
def confirmModel : Model :=
  { baseModel with
      repos := [{ sampleRepo with selected := true }]
      filteredRepos := [{ sampleRepo with selected := true }]
      view := View.confirmArchive
      selectedCount := 1 }

/-! ## Helper lemmas -/

theorem charListLt_irrefl : ∀ as, charListLt as as = false
  | [] => rfl
  | a :: as => by simp [charListLt, charListLt_irrefl as]

theorem char_toNat_inj {a b : Char} (h : a.toNat = b.toNat) : a = b := by
  have h2 := congrArg Char.ofNat h
  rwa [Char.ofNat_toNat, Char.ofNat_toNat] at h2

theorem charListLt_antisymm :
    ∀ as bs, charListLt as bs = false → charListLt bs as = false → as = bs
  | [], [], _, _ => rfl
  | [], _ :: _, h1, _ => by simp [charListLt] at h1
  | _ :: _, [], _, h2 => by simp [charListLt] at h2
  | a :: as, b :: bs, h1, h2 => by
    simp only [charListLt] at h1 h2
    by_cases hab : a.toNat < b.toNat
    · simp [hab] at h1
    · by_cases hba : b.toNat < a.toNat
      · simp [hba] at h2
      · have hn : a.toNat = b.toNat := by omega
        have hc : a = b := char_toNat_inj hn
        subst hc
        simp [hab] at h1 h2
        rw [charListLt_antisymm as bs h1 h2]

theorem strLt_irrefl (a : String) : strLt a a = false :=
  charListLt_irrefl a.toList

theorem strLt_antisymm {a b : String} (h1 : strLt a b = false) (h2 : strLt b a = false) :
    a = b := by
  have h3 : a.toList = b.toList := charListLt_antisymm _ _ h1 h2
  cases a
  cases b
  exact congrArg String.mk (by simpa [String.toList] using h3)

/-- The ascending swap condition is strict with respect to each sort
key: a swapped pair can never both compare key-equal to a common
record. -/
theorem swapCond_strict (f : SortField) (a b c : Repo) (hs : swapCond f a b = true)
    (ha : sortKeyEq f a c = true) (hb : sortKeyEq f b c = true) : False := by
  cases f <;>
    simp only [swapCond, sortKeyEq, Bool.and_eq_true, Bool.not_eq_true',
      decide_eq_true_eq, decide_eq_false_iff_not] at hs ha hb
  case name =>
    have h1 : a.name = c.name := strLt_antisymm ha.2 ha.1
    have h2 : b.name = c.name := strLt_antisymm hb.2 hb.1
    rw [h1, h2] at hs
    rw [strLt_irrefl] at hs
    exact Bool.false_ne_true hs
  case updated => omega
  case created => omega
  case stars => omega
  case forks => omega
  case size => omega

/-- A bubble pass preserves any `filter` whose predicate never holds on
both members of a swapped pair. -/
theorem passK_filter {α : Type} (swap : α → α → Bool) (p : α → Bool)
    (h : ∀ a b, swap a b = true → ¬(p a = true ∧ p b = true)) :
    ∀ (k : Nat) (l : List α), (passK swap k l).filter p = l.filter p := by
  intro k
  induction k with
  | zero => intro l; rfl
  | succ k ih =>
    intro l
    match l with
    | [] => rfl
    | [a] => rfl
    | a :: b :: rest =>
      simp only [passK]
      by_cases hs : swap a b = true
      · simp only [hs, if_true]
        have hnot := h a b hs
        have ih2 := ih (a :: rest)
        cases hpa : p a <;> cases hpb : p b
        · simp [List.filter_cons, hpa, hpb, ih2]
        · simp [List.filter_cons, hpa, hpb] at ih2 ⊢
          exact ih2
        · simp [List.filter_cons, hpa, hpb] at ih2 ⊢
          exact ih2
        · exact absurd ⟨hpa, hpb⟩ hnot
      · simp only [hs, if_false, Bool.false_eq_true]
        have ih2 := ih (b :: rest)
        simp [List.filter_cons, ih2]

/-- The whole bubble sort preserves any `filter` whose predicate never
holds on both members of a swapped pair. -/
theorem bubbleIter_filter {α : Type} (swap : α → α → Bool) (p : α → Bool)
    (h : ∀ a b, swap a b = true → ¬(p a = true ∧ p b = true)) :
    ∀ (k : Nat) (l : List α), (bubbleIter swap k l).filter p = l.filter p := by
  intro k
  induction k with
  | zero => intro l; rfl
  | succ k ih =>
    intro l
    show (bubbleIter swap k (passK swap (k + 1) l)).filter p = l.filter p
    rw [ih (passK swap (k + 1) l), passK_filter swap p h]

/-- A bubble pass permutes its input. -/
theorem passK_perm {α : Type} (swap : α → α → Bool) :
    ∀ (k : Nat) (l : List α), (passK swap k l).Perm l := by
  intro k
  induction k with
  | zero => intro l; exact List.Perm.refl _
  | succ k ih =>
    intro l
    match l with
    | [] => exact List.Perm.refl _
    | [a] => exact List.Perm.refl _
    | a :: b :: rest =>
      simp only [passK]
      by_cases hs : swap a b = true
      · simp only [hs, if_true]
        exact ((ih (a :: rest)).cons b).trans (List.Perm.swap a b rest)
      · simp only [hs, if_false, Bool.false_eq_true]
        exact (ih (b :: rest)).cons a

/-- The whole bubble sort permutes its input. -/
theorem bubbleIter_perm {α : Type} (swap : α → α → Bool) :
    ∀ (k : Nat) (l : List α), (bubbleIter swap k l).Perm l := by
  intro k
  induction k with
  | zero => intro l; exact List.Perm.refl _
  | succ k ih =>
    intro l
    exact (ih (passK swap (k + 1) l)).trans (passK_perm swap (k + 1) l)

/-- Sorting preserves membership. -/
theorem mem_sortRepos {r : Repo} {l : List Repo} {f : SortField} {d : Bool} :
    r ∈ SortRepos l f d ↔ r ∈ l :=
  (bubbleIter_perm (swapFn f d) (l.length - 1) l).mem_iff

/-- `applyFilters` never touches the record set. -/
theorem applyFilters_repos (now : Int) (m : Model) :
    (applyFilters now m).repos = m.repos := rfl

/-- The cursor clamp of `applyFilters` establishes the cursor
invariant from any prior cursor value. -/
theorem applyFilters_cursorInBounds (now : Int) (m : Model) :
    cursorInBounds (applyFilters now m) := by
  simp only [cursorInBounds, applyFilters, adjustOffset, visibleRows]
  split_ifs <;> omega

/-- The record set produced by the background-refresh fold: the new
set, with the selection bit switched on exactly for identifiers that
were selected before. -/
theorem backgroundRefresh_repos_eq (now : Int) (m : Model) (rs : List Repo) :
    (updateMsg now m (Msg.backgroundRefresh (some rs))).repos
      = rs.map (fun r =>
          if r.fullName ∈ (m.repos.filter (fun o => o.selected)).map (fun o => o.fullName)
          then { r with selected := true } else r) := rfl

/-- The optimistic archive update applied to one record: archive and
deselect it when its identifier matches. -/
def archiveMark (nm : String) (r : Repo) : Repo :=
  if r.fullName = nm then { r with isArchived := true, selected := false } else r

theorem map_archiveMark_id (nm : String) :
    ∀ l : List Repo, (∀ r ∈ l, r.fullName ≠ nm) → l.map (archiveMark nm) = l
  | [], _ => rfl
  | r :: rest, h => by
    have hr : r.fullName ≠ nm := h r (List.mem_cons_self r rest)
    simp only [List.map_cons, archiveMark, hr, if_false]
    rw [map_archiveMark_id nm rest (fun x hx => h x (List.mem_cons_of_mem r hx))]

/-- Under unique identifiers, the break-at-first-match loop agrees
with mapping the optimistic update over the whole set. -/
theorem archiveFirst_eq_map (nm : String) :
    ∀ l : List Repo, l.Pairwise (fun a b => a.fullName ≠ b.fullName) →
      archiveFirst l nm = l.map (archiveMark nm)
  | [], _ => rfl
  | r :: rest, h => by
    obtain ⟨hhead, htail⟩ := List.pairwise_cons.mp h
    by_cases hr : r.fullName = nm
    · have hrest : ∀ x ∈ rest, x.fullName ≠ nm :=
        fun x hx hx2 => hhead x hx (hr.trans hx2.symm)
      simp only [archiveFirst, List.map_cons, archiveMark, hr, if_true,
        map_archiveMark_id nm rest hrest]
    · simp only [archiveFirst, List.map_cons, archiveMark, hr, if_false,
        archiveFirst_eq_map nm rest htail]

theorem archiveOps_eq (l : List Repo) :
    archiveOps l = (l.filter (fun r => r.selected && !r.isArchived)).map
      (fun r => Op.archive r.fullName) := by
  induction l with
  | nil => rfl
  | cons r rest ih =>
    by_cases hr : (r.selected && !r.isArchived) = true
    · simp [archiveOps, List.filter_cons, hr, ih]
    · simp [archiveOps, List.filter_cons, hr, ih]

theorem deleteOps_eq (l : List Repo) :
    deleteOps l = (l.filter (fun r => r.selected)).map (fun r => Op.delete r.fullName) := by
  induction l with
  | nil => rfl
  | cons r rest ih =>
    by_cases hr : r.selected = true
    · simp [deleteOps, List.filter_cons, hr, ih]
    · simp [deleteOps, List.filter_cons, hr, ih]

/-! ## Claims -/

/-- C1 (amended): `Sort` is stable in the ascending direction: for
every record list, sort field and reference record, the records whose
sort key compares equal to the reference keep their relative input
order when the descending flag is false.  (With the descending flag
set the code negates the swap condition instead of inverting the
comparator, and ties are reordered — see the counterexample.) -/
theorem c1_sort_stable_ascending (repos : List Repo) (f : SortField) (r0 : Repo) :
    (SortRepos repos f false).filter (fun r => sortKeyEq f r r0)
      = repos.filter (fun r => sortKeyEq f r r0) := by
  apply bubbleIter_filter
  intro a b hs hab
  have hs2 : swapCond f a b = true := by simpa [swapFn] using hs
  exact swapCond_strict f a b r0 hs2 hab.1 hab.2

/-- C1 counterexample: sorting two records with equal names with the
descending flag set reverses them, so records with equal sort-key
values do not retain their relative input order in the descending
direction. -/
theorem c1_counterexample :
    ¬ ((SortRepos [tieA, tieB] SortField.name true).filter
          (fun r => sortKeyEq SortField.name r tieA)
        = [tieA, tieB].filter (fun r => sortKeyEq SortField.name r tieA)) := by
  decide

/-- C5: `Filter` is idempotent: filtering an already-filtered list with
the same options (and the same fixed evaluation instant) returns it
unchanged. -/
theorem c5_filter_idempotent (repos : List Repo) (opts : FilterOptions) (now : Int) :
    Filter (Filter repos opts now) opts now = Filter repos opts now := by
  simp [Filter, List.filter_filter, Bool.and_self]

/-- C6: with both visibility toggles off, `Filter` returns the empty
list for every input: every record is either private (rejected by the
show-private guard) or public (rejected by the show-public guard). -/
theorem c6_both_visibility_off (repos : List Repo) (opts : FilterOptions) (now : Int)
    (h1 : opts.showPrivate = false) (h2 : opts.showPublic = false) :
    Filter repos opts now = [] := by
  rw [Filter, List.filter_eq_nil_iff]
  intro r _
  simp only [keepRepo, h1, h2, Bool.not_false, Bool.and_true]
  cases hp : r.isPrivate <;> simp [hp]

/-- C6 witness: a non-empty concrete list filtered with both visibility
toggles off yields the empty list. -/
theorem c6_witness : Filter [sampleRepo] bothOffOpts 0 = [] :=
  c6_both_visibility_off [sampleRepo] bothOffOpts 0 (by decide) (by decide)

/-- C4: after `applyFilters` — hence after every filter, sort, search
or refresh change — and after every fold that changes the record set
(load, cache load, background refresh, archive completion, delete
completion), the cursor lies in `[0, len(filtered)-1]`, and is `0` when
the filtered view is empty. -/
theorem c4_cursor_clamped (now : Int) (m : Model) :
    cursorInBounds (applyFilters now m)
    ∧ (∀ rs u, cursorInBounds (updateMsg now m (Msg.reposLoaded rs u)))
    ∧ (∀ rs u fresh, cursorInBounds (updateMsg now m (Msg.cacheLoaded rs u fresh)))
    ∧ (∀ rs, cursorInBounds (updateMsg now m (Msg.backgroundRefresh (some rs))))
    ∧ (∀ nm, cursorInBounds (updateMsg now m (Msg.archiveComplete nm)))
    ∧ (∀ nm, cursorInBounds (updateMsg now m (Msg.deleteComplete nm))) := by
  refine ⟨applyFilters_cursorInBounds now m, ?_, ?_, ?_, ?_, ?_⟩
  · intro rs u
    exact applyFilters_cursorInBounds now _
  · intro rs u fresh
    cases fresh <;> exact applyFilters_cursorInBounds now _
  · intro rs
    exact applyFilters_cursorInBounds now _
  · intro nm
    exact applyFilters_cursorInBounds now _
  · intro nm
    exact applyFilters_cursorInBounds now _

/-- C3: folding a background-refresh success replaces the record set
with exactly the fetched set (same length, same provider-owned fields
position by position), and a record in the result is selected iff some
record with the same identifier was selected before; since fetched
records carry `selected = false`, identifiers appearing only in the new
set come out unselected, and records absent from the new set are
dropped entirely. -/
theorem c3_background_refresh_merge (now : Int) (m : Model) (rs : List Repo)
    (h : ∀ r ∈ rs, r.selected = false) :
    (updateMsg now m (Msg.backgroundRefresh (some rs))).repos.length = rs.length
    ∧ ∀ (i : Nat) (hm : i < (updateMsg now m (Msg.backgroundRefresh (some rs))).repos.length)
        (hi : i < rs.length),
        clearSelected ((updateMsg now m (Msg.backgroundRefresh (some rs))).repos.get ⟨i, hm⟩)
            = clearSelected (rs.get ⟨i, hi⟩)
        ∧ (((updateMsg now m (Msg.backgroundRefresh (some rs))).repos.get ⟨i, hm⟩).selected = true
            ↔ ∃ o ∈ m.repos, o.selected = true ∧ o.fullName = (rs.get ⟨i, hi⟩).fullName) := by
  rw [backgroundRefresh_repos_eq]
  refine ⟨by simp, ?_⟩
  intro i hm hi
  simp only [List.get_eq_getElem, List.getElem_map]
  by_cases hc :
      (rs[i]).fullName ∈ (m.repos.filter (fun o => o.selected)).map (fun o => o.fullName)
  · refine ⟨by simp [hc, clearSelected], ?_⟩
    simp only [hc, if_true]
    simp only [List.mem_map, List.mem_filter] at hc
    constructor
    · intro _
      obtain ⟨o, ⟨ho1, ho2⟩, ho3⟩ := hc
      exact ⟨o, ho1, ho2, ho3⟩
    · intro _
      trivial
  · have hsel : (rs[i]).selected = false := h _ (List.getElem_mem hi)
    refine ⟨by simp [hc, clearSelected], ?_⟩
    simp only [hc, if_false]
    constructor
    · intro hx
      rw [hsel] at hx
      exact absurd hx (by simp)
    · intro ⟨o, ho1, ho2, ho3⟩
      exact absurd (List.mem_map.mpr ⟨o, List.mem_filter.mpr ⟨ho1, ho2⟩, ho3⟩) hc

/-- C3 witness: a concrete refresh in which the surviving identifier
keeps its selection, the new identifier is unselected, and the dropped
identifier disappears. -/
theorem c3_witness :
    (updateMsg 0
        { baseModel with repos := [{ sampleRepo with selected := true }, sampleRepo2] }
        (Msg.backgroundRefresh (some [{ sampleRepo with description := "upd" }, { name := "new", fullName := "user/new" }]))).repos.length
        = ([{ sampleRepo with description := "upd" }, ({ name := "new", fullName := "user/new" } : Repo)] : List Repo).length
    ∧ ∀ (i : Nat)
        (hm : i < (updateMsg 0
          { baseModel with repos := [{ sampleRepo with selected := true }, sampleRepo2] }
          (Msg.backgroundRefresh (some [{ sampleRepo with description := "upd" }, { name := "new", fullName := "user/new" }]))).repos.length)
        (hi : i < ([{ sampleRepo with description := "upd" }, ({ name := "new", fullName := "user/new" } : Repo)] : List Repo).length),
        clearSelected ((updateMsg 0
            { baseModel with repos := [{ sampleRepo with selected := true }, sampleRepo2] }
            (Msg.backgroundRefresh (some [{ sampleRepo with description := "upd" }, { name := "new", fullName := "user/new" }]))).repos.get ⟨i, hm⟩)
            = clearSelected (([{ sampleRepo with description := "upd" }, ({ name := "new", fullName := "user/new" } : Repo)] : List Repo).get ⟨i, hi⟩)
        ∧ (((updateMsg 0
            { baseModel with repos := [{ sampleRepo with selected := true }, sampleRepo2] }
            (Msg.backgroundRefresh (some [{ sampleRepo with description := "upd" }, { name := "new", fullName := "user/new" }]))).repos.get ⟨i, hm⟩).selected = true
            ↔ ∃ o ∈ ({ baseModel with repos := [{ sampleRepo with selected := true }, sampleRepo2] } : Model).repos,
                o.selected = true
                ∧ o.fullName = (([{ sampleRepo with description := "upd" }, ({ name := "new", fullName := "user/new" } : Repo)] : List Repo).get ⟨i, hi⟩).fullName) :=
  c3_background_refresh_merge 0
    { baseModel with repos := [{ sampleRepo with selected := true }, sampleRepo2] }
    [{ sampleRepo with description := "upd" }, { name := "new", fullName := "user/new" }]
    (by decide)

/-- C2: evaluating the code at a reachable confirm-archive state with
one selected record: dismissing the dialog with `n` clears the
`selected` flag throughout the authoritative record set, yet the
filtered view still contains a record marked selected — the filtered
view does not reflect the authoritative set's flags, contradicting the
claimed invariant (the handler never recomputes or clears
`filteredRepos`). -/
theorem c2_confirm_dismiss_drift :
    (∀ r ∈ (handleConfirmArchiveKeys confirmModel "n").1.repos, r.selected = false)
    ∧ (∃ r ∈ (handleConfirmArchiveKeys confirmModel "n").1.filteredRepos, r.selected = true)
    ∧ (handleConfirmArchiveKeys confirmModel "n").1.view = View.list := by
  decide

/-- C7: folding archive-completed(id) under unique identifiers: the
record set becomes the old set with exactly the matching record (if
any) archived and deselected; if no record matches, the record set is
unchanged; every record carrying the identifier afterwards is archived
and unselected; the filtered view is recomputed from the new set; and
under default options no record with the identifier remains in the
filtered view. -/
theorem c7_archive_completed (now : Int) (m : Model) (nm : String)
    (huniq : m.repos.Pairwise (fun a b => a.fullName ≠ b.fullName)) :
    (updateMsg now m (Msg.archiveComplete nm)).repos = m.repos.map (archiveMark nm)
    ∧ ((∀ r ∈ m.repos, r.fullName ≠ nm) →
        (updateMsg now m (Msg.archiveComplete nm)).repos = m.repos)
    ∧ (∀ r ∈ (updateMsg now m (Msg.archiveComplete nm)).repos,
        r.fullName = nm → r.isArchived = true ∧ r.selected = false)
    ∧ (updateMsg now m (Msg.archiveComplete nm)).filteredRepos
        = SortRepos (Filter ((updateMsg now m (Msg.archiveComplete nm)).repos) m.filterOpts now)
            m.filterOpts.sortBy m.filterOpts.sortDesc
    ∧ (m.filterOpts = DefaultFilterOptions →
        ∀ r ∈ (updateMsg now m (Msg.archiveComplete nm)).filteredRepos, r.fullName ≠ nm) := by
  have hrepos : (updateMsg now m (Msg.archiveComplete nm)).repos = archiveFirst m.repos nm :=
    rfl
  have hmap : (updateMsg now m (Msg.archiveComplete nm)).repos = m.repos.map (archiveMark nm) := by
    rw [hrepos, archiveFirst_eq_map nm m.repos huniq]
  refine ⟨hmap, ?_, ?_, rfl, ?_⟩
  · intro habsent
    rw [hmap, map_archiveMark_id nm m.repos habsent]
  · intro r hr hname
    rw [hmap] at hr
    obtain ⟨r0, _, hr0⟩ := List.mem_map.mp hr
    by_cases h0 : r0.fullName = nm
    · rw [← hr0]
      simp [archiveMark, h0]
    · rw [← hr0] at hname
      simp [archiveMark, h0] at hname
  · intro hopts r hr hname
    have hfil : r ∈ Filter ((updateMsg now m (Msg.archiveComplete nm)).repos) m.filterOpts now :=
      mem_sortRepos.mp hr
    have hkeep := (List.mem_filter.mp hfil).2
    have hmem := (List.mem_filter.mp hfil).1
    rw [hmap] at hmem
    obtain ⟨r0, _, hr0⟩ := List.mem_map.mp hmem
    have harch : r.isArchived = true := by
      by_cases h0 : r0.fullName = nm
      · rw [← hr0]; simp [archiveMark, h0]
      · rw [← hr0] at hname
        simp [archiveMark, h0] at hname
    rw [hopts] at hkeep
    simp [keepRepo, DefaultFilterOptions, harch] at hkeep

/-- C7 witness: a concrete fold archiving the selected record. -/
theorem c7_witness :
    (updateMsg 0 confirmModel (Msg.archiveComplete "user/proj")).repos
        = confirmModel.repos.map (archiveMark "user/proj")
    ∧ ((∀ r ∈ confirmModel.repos, r.fullName ≠ "user/proj") →
        (updateMsg 0 confirmModel (Msg.archiveComplete "user/proj")).repos = confirmModel.repos)
    ∧ (∀ r ∈ (updateMsg 0 confirmModel (Msg.archiveComplete "user/proj")).repos,
        r.fullName = "user/proj" → r.isArchived = true ∧ r.selected = false)
    ∧ (updateMsg 0 confirmModel (Msg.archiveComplete "user/proj")).filteredRepos
        = SortRepos
            (Filter ((updateMsg 0 confirmModel (Msg.archiveComplete "user/proj")).repos)
              confirmModel.filterOpts 0)
            confirmModel.filterOpts.sortBy confirmModel.filterOpts.sortDesc
    ∧ (confirmModel.filterOpts = DefaultFilterOptions →
        ∀ r ∈ (updateMsg 0 confirmModel (Msg.archiveComplete "user/proj")).filteredRepos,
          r.fullName ≠ "user/proj") :=
  c7_archive_completed 0 confirmModel "user/proj" (by simp [confirmModel, baseModel])

/-- C8: pressing `y` on the confirm dialogs returns the model to the
List screen at once and dispatches exactly one operation per selected
(and, for archive, not-already-archived) record, each carrying only
that record's identifier, in record-set order. -/
theorem c8_confirm_dispatch (m : Model) :
    ((handleConfirmArchiveKeys m "y").1.view = View.list
      ∧ (handleConfirmArchiveKeys m "y").2
          = (m.repos.filter (fun r => r.selected && !r.isArchived)).map
              (fun r => Op.archive r.fullName))
    ∧ ((handleConfirmDeleteKeys m "y").1.view = View.list
      ∧ (handleConfirmDeleteKeys m "y").2
          = (m.repos.filter (fun r => r.selected)).map (fun r => Op.delete r.fullName)) := by
  constructor
  · constructor
    · rfl
    · show archiveOps m.repos = _
      exact archiveOps_eq m.repos
  · constructor
    · rfl
    · show deleteOps m.repos = _
      exact deleteOps_eq m.repos

/-- C9: folding an error with records already loaded keeps the record
set, the filtered view and selection untouched, records the message as
a transient error status, and renders the normal screen; the fatal
error screen can only ever be rendered with zero records loaded. -/
theorem c9_error_transient (now : Int) (m : Model) (e : String) (h : m.repos ≠ []) :
    (updateMsg now m (Msg.errorResult e)).repos = m.repos
    ∧ (updateMsg now m (Msg.errorResult e)).filteredRepos = m.filteredRepos
    ∧ (updateMsg now m (Msg.errorResult e)).selectedCount = m.selectedCount
    ∧ (updateMsg now m (Msg.errorResult e)).message = e
    ∧ (updateMsg now m (Msg.errorResult e)).messageIsError = true
    ∧ renderMode (updateMsg now m (Msg.errorResult e)) = RenderMode.normal m.view
    ∧ (∀ mm : Model, renderMode mm = RenderMode.fatalError → mm.repos = []) := by
  refine ⟨rfl, rfl, rfl, rfl, rfl, ?_, ?_⟩
  · have hlen : m.repos.length ≠ 0 := fun hh => h (List.length_eq_zero.mp hh)
    simp [updateMsg, renderMode, hlen]
  · intro mm hmm
    by_cases hl : mm.loading
    · simp [renderMode, hl] at hmm
    · by_cases hfe : (mm.err.isSome && mm.repos.length == 0) = true
      · have hlen : mm.repos.length = 0 := by
          have h2 := (Bool.and_eq_true _ _).mp hfe
          simpa using h2.2
        exact List.length_eq_zero.mp hlen
      · simp [renderMode, hl, hfe] at hmm

/-- C9 witness: a concrete error fold over one loaded record. -/
theorem c9_witness :
    (updateMsg 0 { baseModel with repos := [sampleRepo], filteredRepos := [sampleRepo] }
        (Msg.errorResult "boom")).repos
        = ({ baseModel with repos := [sampleRepo], filteredRepos := [sampleRepo] } : Model).repos
    ∧ (updateMsg 0 { baseModel with repos := [sampleRepo], filteredRepos := [sampleRepo] }
        (Msg.errorResult "boom")).filteredRepos
        = ({ baseModel with repos := [sampleRepo], filteredRepos := [sampleRepo] } : Model).filteredRepos
    ∧ (updateMsg 0 { baseModel with repos := [sampleRepo], filteredRepos := [sampleRepo] }
        (Msg.errorResult "boom")).selectedCount
        = ({ baseModel with repos := [sampleRepo], filteredRepos := [sampleRepo] } : Model).selectedCount
    ∧ (updateMsg 0 { baseModel with repos := [sampleRepo], filteredRepos := [sampleRepo] }
        (Msg.errorResult "boom")).message = "boom"
    ∧ (updateMsg 0 { baseModel with repos := [sampleRepo], filteredRepos := [sampleRepo] }
        (Msg.errorResult "boom")).messageIsError = true
    ∧ renderMode (updateMsg 0 { baseModel with repos := [sampleRepo], filteredRepos := [sampleRepo] }
        (Msg.errorResult "boom"))
        = RenderMode.normal ({ baseModel with repos := [sampleRepo], filteredRepos := [sampleRepo] } : Model).view
    ∧ (∀ mm : Model, renderMode mm = RenderMode.fatalError → mm.repos = []) :=
  c9_error_transient 0 { baseModel with repos := [sampleRepo], filteredRepos := [sampleRepo] }
    "boom" (by decide)

/-- C10: folding a load or forced-refresh success replaces the record
set with exactly the records carried by the message; since every record
constructed from a provider fetch has `selected = false`, no record in
the replaced set is selected, so a forced refresh drops all previous
selection. -/
theorem c10_load_replaces_wholesale (now : Int) (m : Model) (rs : List Repo) (u : String)
    (h : ∀ r ∈ rs, r.selected = false) :
    (updateMsg now m (Msg.reposLoaded rs u)).repos = rs
    ∧ (∀ r ∈ (updateMsg now m (Msg.reposLoaded rs u)).repos, r.selected = false)
    ∧ (∀ n : GhRepoNode, (GhRepoNode.toRepo n).selected = false) := by
  refine ⟨rfl, ?_, fun n => rfl⟩
  intro r hr
  exact h r hr

/-- C10 witness: a forced refresh over a model with a selected record
replaces the set and leaves nothing selected. -/
theorem c10_witness :
    (updateMsg 0 confirmModel (Msg.reposLoaded [sampleRepo2] "user")).repos = [sampleRepo2]
    ∧ (∀ r ∈ (updateMsg 0 confirmModel (Msg.reposLoaded [sampleRepo2] "user")).repos,
        r.selected = false)
    ∧ (∀ n : GhRepoNode, (GhRepoNode.toRepo n).selected = false) :=
  c10_load_replaces_wholesale 0 confirmModel [sampleRepo2] "user" (by decide)

end RepoReview
